import Mathlib

/-!
# Verification of pipelinewise-tap-mysql binlog sync strategy

Shallow embedding of `tap_mysql/sync_strategies/binlog.py`: the binlog
CDC loop `sync_table`, its configuration verifiers, and the record
builder `row_to_singer_record`.  Python mutation of the singer `state`
dict is modelled as explicit state passing; the generator's `yield`s are
collected into a list of messages, in order.  The external binlog reader
is modelled as the list of events it yields, each paired with the
reader's post-event `(log_file, log_pos)` coordinates.
-/

namespace TapMysql

/-- A Python value as it appears in row payloads.  `vUtcDatetime ts`
models `datetime.utcfromtimestamp(ts).replace(tzinfo=pytz.UTC)`. -/
inductive Value where
  | vNull : Value
  | vInt : Int → Value
  | vStr : String → Value
  | vUtcDatetime : Int → Value
deriving DecidableEq

/-- A Python dict of column name to value, as an association list. -/
abbrev Dict := List (String × Value)

/-- Python dict assignment `d[k] = v`: replaces the value at an existing
key in place, otherwise appends the new pair at the end. -/
def dictSet (d : Dict) (k : String) (v : Value) : Dict :=
  if d.any (fun kv => kv.1 = k) then
    d.map (fun kv => if kv.1 = k then (k, v) else kv)
  else
    d ++ [(k, v)]

/-- The fields of `catalog_entry` that `binlog.py` reads. -/
structure CatalogEntry where
  tap_stream_id : String
  stream : String
  database : String
deriving DecidableEq

/-- Modelled from the spec: the Position Store collaborator keeps, per
tracked stream, a Bookmark `{log_file, log_pos, version}` with plain
get/set last-write-wins semantics (`singer.get_bookmark` /
`singer.write_bookmark`).  Only one stream id is ever touched by
`sync_table`, so the state is that stream's bookmark; `none` models an
absent field (Python `None`). -/
structure TapState where
  log_file : Option String
  log_pos : Option Int
  version : Option Int
deriving DecidableEq

/-- Modelled from the spec: `singer.write_bookmark(state, id, "log_file", v)`
returns the state with that field overwritten (copy-on-write). -/
def write_bookmark_log_file (s : TapState) (v : Option String) : TapState :=
  { s with log_file := v }

/-- Modelled from the spec: `singer.write_bookmark(state, id, "log_pos", v)`. -/
def write_bookmark_log_pos (s : TapState) (v : Option Int) : TapState :=
  { s with log_pos := v }

/-- Modelled from the spec: `singer.write_bookmark(state, id, "version", v)`. -/
def write_bookmark_version (s : TapState) (v : Option Int) : TapState :=
  { s with version := v }

/-- The messages `sync_table` yields, in order.  A `state` message
carries the deep copy (`copy.deepcopy`) of the state at emission. -/
inductive Message where
  | activateVersion : String → Int → Message
  | record : String → Int → List (String × Value) → Int → Message
  | state : TapState → Message
deriving DecidableEq

/-- Recognizer for state (checkpoint) messages. -/
def Message.isState : Message → Bool
  | .state _ => true
  | _ => false

/-- Recognizer for record messages. -/
def Message.isRecord : Message → Bool
  | .record _ _ _ _ => true
  | _ => false

/-- Recognizer for ActivateVersion messages. -/
def Message.isActivate : Message → Bool
  | .activateVersion _ _ => true
  | _ => false

/-- Constant `SDC_DELETED_AT = "_sdc_deleted_at"` from `binlog.py`. -/
def SDC_DELETED_AT : String := "_sdc_deleted_at"

/-- Constant `UPDATE_BOOKMARK_PERIOD = 1000` from `binlog.py`. -/
def UPDATE_BOOKMARK_PERIOD : Nat := 1000

/-- Function `add_automatic_properties` from `binlog.py`, restricted to its effect
on `columns`: appends `SDC_DELETED_AT` (its schema-property mutation is
on the catalog, outside this model). -/
def add_automatic_properties (columns : List String) : List String :=
  columns ++ [SDC_DELETED_AT]

/-- Modelled from the spec: `common.row_to_singer_record` (a repo module
not under src/) builds the output unit ChangeRecord
`{stream_id, version, values, extracted_at}` from the given parallel
lists of values and column names (spec section 3). -/
def common_row_to_singer_record (catalog_entry : CatalogEntry) (version : Int)
    (rec_vals : List Value) (rec_cols : List String) (time_extracted : Int) :
    Message :=
  Message.record catalog_entry.stream version (rec_cols.zip rec_vals) time_extracted

/-- Function `row_to_singer_record` from `binlog.py`: keeps only the pairs of
`vals` whose key is in `columns`, then hands the columns and values to
`common.row_to_singer_record`. -/
def row_to_singer_record (catalog_entry : CatalogEntry) (version : Int)
    (vals : Dict) (columns : List String) (time_extracted : Int) : Message :=
  let filtered_vals := vals.filter (fun kv => columns.contains kv.1)
  common_row_to_singer_record catalog_entry version
    (filtered_vals.map Prod.snd) (filtered_vals.map Prod.fst) time_extracted

/-- Error text of `verify_binlog_config` for a bad `binlog_format`. -/
def binlog_format_error (stream observed : String) : String :=
  "Unable to replicate stream(" ++ stream ++
    ") with binlog because binlog_format is not set to \x27ROW\x27: " ++
    observed ++ "."

/-- Error text of `verify_binlog_config` for a bad `binlog_row_image`. -/
def binlog_row_image_error (stream observed : String) : String :=
  "Unable to replicate stream(" ++ stream ++
    ") with binlog because binlog_row_image is not set to \x27FULL\x27: " ++
    observed ++ "."

/-- Function `verify_binlog_config` from `binlog.py`.  The two server variables
`@@binlog_format` and `@@binlog_row_image` (read by the cursor) are
passed in as the query result. -/
def verify_binlog_config (binlog_format binlog_row_image : String)
    (catalog_entry : CatalogEntry) : Except String Unit :=
  if binlog_format ≠ "ROW" then
    Except.error (binlog_format_error catalog_entry.stream binlog_format)
  else if binlog_row_image ≠ "FULL" then
    Except.error (binlog_row_image_error catalog_entry.stream binlog_row_image)
  else
    Except.ok ()

/-- Python `str(...)` of the optional bookmark value, as it appears in
the error text. -/
def pyStrOpt : Option String → String
  | none => "None"
  | some s => s

/-- Error text of `verify_log_file_exists` for a missing log file. -/
def log_file_missing_error (stream : String) (log_file : Option String) : String :=
  "Unable to replicate stream(" ++ stream ++
    ") with binlog because log file " ++ pyStrOpt log_file ++ " does not exist."

/-- Error text of `verify_log_file_exists` for a position past the tail. -/
def log_pos_ahead_error (stream : String) (log_pos : Int) (log_file : Option String)
    (current_log_pos : Int) : String :=
  "Unable to replicate stream(" ++ stream ++
    ") with binlog because requested position (" ++ toString log_pos ++
    ") for log file " ++ pyStrOpt log_file ++
    " is greater than current position (" ++ toString current_log_pos ++ ")."

/-- Function `verify_log_file_exists` from `binlog.py`.  `binary_logs` is the
`SHOW BINARY LOGS` result: (file name, current tail position) rows.  The
`log_file`/`log_pos` arguments come from the bookmark and may be absent;
a string row name never equals an absent `log_file`.  Comparing an
absent `log_pos` against the tail would be a Python `TypeError`, modelled
as an error value. -/
def verify_log_file_exists (binary_logs : List (String × Int))
    (catalog_entry : CatalogEntry) (log_file : Option String)
    (log_pos : Option Int) : Except String Unit :=
  match binary_logs.filter (fun log => some log.1 = log_file) with
  | [] => Except.error (log_file_missing_error catalog_entry.stream log_file)
  | existing :: _ =>
    match log_pos with
    | none => Except.error "TypeError"
    | some pos =>
      if pos > existing.2 then
        Except.error
          (log_pos_ahead_error catalog_entry.stream pos log_file existing.2)
      else
        Except.ok ()

/-- A row payload of a `WriteRowsEvent` or `DeleteRowsEvent`:
`row["values"]`. -/
structure WriteRow where
  values : Dict
deriving DecidableEq

/-- A row payload of an `UpdateRowsEvent`: `row["before_values"]` and
`row["after_values"]` (the code reads only the after values). -/
structure UpdateRow where
  before_values : Dict
  after_values : Dict
deriving DecidableEq

/-- The four binlog event kinds the reader is asked for (`only_events`).
`rotateEvent` carries `next_binlog` and `position`; row events carry
their originating `schema`, `table`, the event `timestamp`, and rows. -/
inductive BinlogEvent where
  | rotateEvent : String → Int → BinlogEvent
  | writeRowsEvent : String → String → Int → List WriteRow → BinlogEvent
  | updateRowsEvent : String → String → Int → List UpdateRow → BinlogEvent
  | deleteRowsEvent : String → String → Int → List WriteRow → BinlogEvent
deriving DecidableEq

/-- One pull from the `BinLogStreamReader`: the decoded event together
with the reader's post-event coordinates `reader.log_file` and
`reader.log_pos`. -/
structure PulledEvent where
  log_file : String
  log_pos : Int
  event : BinlogEvent
deriving DecidableEq

/-- The values `sync_table` fixes before entering its event loop:
catalog entry, column list, the session's `stream_version`, the bookmark
`(log_file, log_pos)` read from state at session start, and
`time_extracted = utils.now()`. -/
structure SyncCtx where
  catalog_entry : CatalogEntry
  columns : List String
  stream_version : Int
  start_log_file : Option String
  start_log_pos : Option Int
  time_extracted : Int
deriving DecidableEq

/-- The pair `table_path = (catalog_entry.database, catalog_entry.stream)`. -/
def tablePath (ctx : SyncCtx) : String × String :=
  (ctx.catalog_entry.database, ctx.catalog_entry.stream)

/-- The mutable loop variables of `sync_table`: the state dict and
`rows_saved`. -/
structure LoopState where
  state : TapState
  rows_saved : Nat
deriving DecidableEq

/-- The `WriteRowsEvent` inner loop: per row, yield a record built from
`row["values"]`, write the session-start `log_file` into the bookmark
(lines 173-176), and increment `rows_saved`. -/
def writeRowsLoop (ctx : SyncCtx) (st : TapState) (rows_saved : Nat) :
    List WriteRow → TapState × Nat × List Message
  | [] => (st, rows_saved, [])
  | row :: rest =>
    let m := row_to_singer_record ctx.catalog_entry ctx.stream_version
      row.values ctx.columns ctx.time_extracted
    let st1 := write_bookmark_log_file st ctx.start_log_file
    let (stf, rsf, ms) := writeRowsLoop ctx st1 (rows_saved + 1) rest
    (stf, rsf, m :: ms)

/-- The `UpdateRowsEvent` inner loop: per row, yield a record built from
`row["after_values"]` and increment `rows_saved`. -/
def updateRowsLoop (ctx : SyncCtx) (st : TapState) (rows_saved : Nat) :
    List UpdateRow → TapState × Nat × List Message
  | [] => (st, rows_saved, [])
  | row :: rest =>
    let m := row_to_singer_record ctx.catalog_entry ctx.stream_version
      row.after_values ctx.columns ctx.time_extracted
    let (stf, rsf, ms) := updateRowsLoop ctx st (rows_saved + 1) rest
    (stf, rsf, m :: ms)

/-- The `DeleteRowsEvent` inner loop: per row, set
`vals[SDC_DELETED_AT]` to the event timestamp converted to UTC, yield a
record built from the result, and increment `rows_saved`. -/
def deleteRowsLoop (ctx : SyncCtx) (timestamp : Int) (st : TapState)
    (rows_saved : Nat) : List WriteRow → TapState × Nat × List Message
  | [] => (st, rows_saved, [])
  | row :: rest =>
    let event_ts := Value.vUtcDatetime timestamp
    let vals := dictSet row.values SDC_DELETED_AT event_ts
    let m := row_to_singer_record ctx.catalog_entry ctx.stream_version
      vals ctx.columns ctx.time_extracted
    let (stf, rsf, ms) := deleteRowsLoop ctx timestamp st (rows_saved + 1) rest
    (stf, rsf, m :: ms)

/-- One iteration of the `for binlog_event in reader` loop of
`sync_table` (lines 148-215): the skip-duplicate check, then the
rotate / matched-table / other-table branches, the post-branch bookmark
writes, the `rows_saved % UPDATE_BOOKMARK_PERIOD` checkpoint, and the
unconditional trailing state message of line 215 (skipped events
`continue` past it).  Returns the next loop state and the messages
yielded during the iteration, in order. -/
def processEvent (ctx : SyncCtx) (ls : LoopState) (p : PulledEvent) :
    LoopState × List Message :=
  if ctx.start_log_file = some p.log_file ∧ ctx.start_log_pos = some p.log_pos then
    (ls, [])
  else
    match p.event with
    | BinlogEvent.rotateEvent next_binlog position =>
      let st1 := write_bookmark_log_file ls.state (some next_binlog)
      let st2 := write_bookmark_log_pos st1 (some position)
      ({ state := st2, rows_saved := ls.rows_saved }, [Message.state st2])
    | BinlogEvent.writeRowsEvent schema table _ rows =>
      if (schema, table) = tablePath ctx then
        let (st1, rs1, recs) := writeRowsLoop ctx ls.state ls.rows_saved rows
        let st2 := write_bookmark_log_file st1 (some p.log_file)
        let st3 := write_bookmark_log_pos st2 (some p.log_pos)
        let thr := if rs1 % UPDATE_BOOKMARK_PERIOD = 0
          then [Message.state st3] else []
        ({ state := st3, rows_saved := rs1 },
          recs ++ thr ++ [Message.state st3])
      else
        (ls, [Message.state ls.state])
    | BinlogEvent.updateRowsEvent schema table _ rows =>
      if (schema, table) = tablePath ctx then
        let (st1, rs1, recs) := updateRowsLoop ctx ls.state ls.rows_saved rows
        let st2 := write_bookmark_log_file st1 (some p.log_file)
        let st3 := write_bookmark_log_pos st2 (some p.log_pos)
        let thr := if rs1 % UPDATE_BOOKMARK_PERIOD = 0
          then [Message.state st3] else []
        ({ state := st3, rows_saved := rs1 },
          recs ++ thr ++ [Message.state st3])
      else
        (ls, [Message.state ls.state])
    | BinlogEvent.deleteRowsEvent schema table timestamp rows =>
      if (schema, table) = tablePath ctx then
        let (st1, rs1, recs) :=
          deleteRowsLoop ctx timestamp ls.state ls.rows_saved rows
        let st2 := write_bookmark_log_file st1 (some p.log_file)
        let st3 := write_bookmark_log_pos st2 (some p.log_pos)
        let thr := if rs1 % UPDATE_BOOKMARK_PERIOD = 0
          then [Message.state st3] else []
        ({ state := st3, rows_saved := rs1 },
          recs ++ thr ++ [Message.state st3])
      else
        (ls, [Message.state ls.state])

/-- The whole `for binlog_event in reader` loop over the reader's
pulled events. -/
def runEvents (ctx : SyncCtx) (ls : LoopState) :
    List PulledEvent → LoopState × List Message
  | [] => (ls, [])
  | p :: ps =>
    let (ls1, ms1) := processEvent ctx ls p
    let (ls2, ms2) := runEvents ctx ls1 ps
    (ls2, ms1 ++ ms2)

/-- Everything `sync_table` consumes from the outside world: the two
verification query results, and the reader's pulled events with
post-event coordinates.  `now` models `utils.now()`, captured once at
line 142. -/
structure SyncInput where
  binlog_format : String
  binlog_row_image : String
  binary_logs : List (String × Int)
  events : List PulledEvent
  now : Int
deriving DecidableEq

/-- The loop context `sync_table` fixes before its event loop: the
session bookmark read from the incoming state, and `time_extracted`
captured once from `utils.now()` (line 142). -/
def sessionCtx (catalog_entry : CatalogEntry) (columns : List String)
    (stream_version : Int) (state : TapState) (inp : SyncInput) : SyncCtx :=
  { catalog_entry := catalog_entry, columns := columns,
    stream_version := stream_version, start_log_file := state.log_file,
    start_log_pos := state.log_pos, time_extracted := inp.now }

/-- Generator `sync_table` from `binlog.py` as a function from its inputs to
either a fatal verification error or the ordered list of yielded
messages plus the final state.  `stream_version` stands for
`common.get_stream_version(tap_stream_id, state)` (a repo module not
under src/); every claim below holds for an arbitrary value of it. -/
def sync_tableModel (catalog_entry : CatalogEntry) (state : TapState)
    (columns : List String) (stream_version : Int) (inp : SyncInput) :
    Except String (List Message × TapState) := do
  verify_binlog_config inp.binlog_format inp.binlog_row_image catalog_entry
  verify_log_file_exists inp.binary_logs catalog_entry state.log_file state.log_pos
  let state1 := write_bookmark_version state (some stream_version)
  let ctx := sessionCtx catalog_entry columns stream_version state inp
  let (lsf, msgs) := runEvents ctx { state := state1, rows_saved := 0 } inp.events
  Except.ok (Message.activateVersion catalog_entry.stream stream_version :: msgs,
    lsf.state)

/-! ## Helper lemmas -/

theorem zip_map_fst_snd_self {α β : Type} (l : List (α × β)) :
    (l.map Prod.fst).zip (l.map Prod.snd) = l := by
  induction l with
  | nil => rfl
  | cons kv rest ih => simp [List.zip_cons_cons, ih]

/-- Lemma form: `row_to_singer_record` emits the record for precisely the
column-filtered payload. -/
theorem row_to_singer_record_eq (catalog_entry : CatalogEntry) (version : Int)
    (vals : Dict) (columns : List String) (time_extracted : Int) :
    row_to_singer_record catalog_entry version vals columns time_extracted =
      Message.record catalog_entry.stream version
        (vals.filter (fun kv => columns.contains kv.1)) time_extracted := by
  unfold row_to_singer_record common_row_to_singer_record
  simp [zip_map_fst_snd_self]

theorem writeRowsLoop_rows_saved (ctx : SyncCtx) (rows : List WriteRow) :
    ∀ st rs, (writeRowsLoop ctx st rs rows).2.1 = rs + rows.length := by
  induction rows with
  | nil => intro st rs; simp [writeRowsLoop]
  | cons r rest ih => intro st rs; simp [writeRowsLoop, ih]; omega

theorem writeRowsLoop_msgs (ctx : SyncCtx) (rows : List WriteRow) :
    ∀ st rs, (writeRowsLoop ctx st rs rows).2.2 = rows.map (fun r =>
      row_to_singer_record ctx.catalog_entry ctx.stream_version r.values
        ctx.columns ctx.time_extracted) := by
  induction rows with
  | nil => intro st rs; simp [writeRowsLoop]
  | cons r rest ih => intro st rs; simp [writeRowsLoop, ih]

theorem updateRowsLoop_rows_saved (ctx : SyncCtx) (rows : List UpdateRow) :
    ∀ st rs, (updateRowsLoop ctx st rs rows).2.1 = rs + rows.length := by
  induction rows with
  | nil => intro st rs; simp [updateRowsLoop]
  | cons r rest ih => intro st rs; simp [updateRowsLoop, ih]; omega

theorem updateRowsLoop_msgs (ctx : SyncCtx) (rows : List UpdateRow) :
    ∀ st rs, (updateRowsLoop ctx st rs rows).2.2 = rows.map (fun r =>
      row_to_singer_record ctx.catalog_entry ctx.stream_version r.after_values
        ctx.columns ctx.time_extracted) := by
  induction rows with
  | nil => intro st rs; simp [updateRowsLoop]
  | cons r rest ih => intro st rs; simp [updateRowsLoop, ih]

theorem deleteRowsLoop_rows_saved (ctx : SyncCtx) (timestamp : Int)
    (rows : List WriteRow) :
    ∀ st rs, (deleteRowsLoop ctx timestamp st rs rows).2.1 = rs + rows.length := by
  induction rows with
  | nil => intro st rs; simp [deleteRowsLoop]
  | cons r rest ih => intro st rs; simp [deleteRowsLoop, ih]; omega

theorem deleteRowsLoop_msgs (ctx : SyncCtx) (timestamp : Int)
    (rows : List WriteRow) :
    ∀ st rs, (deleteRowsLoop ctx timestamp st rs rows).2.2 = rows.map (fun r =>
      row_to_singer_record ctx.catalog_entry ctx.stream_version
        (dictSet r.values SDC_DELETED_AT (Value.vUtcDatetime timestamp))
        ctx.columns ctx.time_extracted) := by
  induction rows with
  | nil => intro st rs; simp [deleteRowsLoop]
  | cons r rest ih => intro st rs; simp [deleteRowsLoop, ih]

/-- The `(schema, table)` of a row event; rotate events carry none. -/
def eventTablePath : BinlogEvent → Option (String × String)
  | BinlogEvent.rotateEvent _ _ => none
  | BinlogEvent.writeRowsEvent s t _ _ => some (s, t)
  | BinlogEvent.updateRowsEvent s t _ _ => some (s, t)
  | BinlogEvent.deleteRowsEvent s t _ _ => some (s, t)

theorem processEvent_skip (ctx : SyncCtx) (ls : LoopState) (p : PulledEvent)
    (h1 : ctx.start_log_file = some p.log_file)
    (h2 : ctx.start_log_pos = some p.log_pos) :
    processEvent ctx ls p = (ls, []) := by
  simp [processEvent, h1, h2]

theorem processEvent_rotate (ctx : SyncCtx) (ls : LoopState) (p : PulledEvent)
    (nb : String) (pos : Int)
    (hev : p.event = BinlogEvent.rotateEvent nb pos)
    (hskip : ¬(ctx.start_log_file = some p.log_file ∧
               ctx.start_log_pos = some p.log_pos)) :
    processEvent ctx ls p =
      ({ state := { ls.state with log_file := some nb, log_pos := some pos },
         rows_saved := ls.rows_saved },
       [Message.state { ls.state with log_file := some nb, log_pos := some pos }]) := by
  simp [processEvent, hev, hskip, write_bookmark_log_file, write_bookmark_log_pos]

theorem processEvent_mismatch (ctx : SyncCtx) (ls : LoopState) (p : PulledEvent)
    (s t : String)
    (hev : eventTablePath p.event = some (s, t))
    (hmis : (s, t) ≠ tablePath ctx)
    (hskip : ¬(ctx.start_log_file = some p.log_file ∧
               ctx.start_log_pos = some p.log_pos)) :
    processEvent ctx ls p = (ls, [Message.state ls.state]) := by
  cases hpe : p.event with
  | rotateEvent nb pos => rw [hpe] at hev; simp [eventTablePath] at hev
  | writeRowsEvent s' t' ts rows =>
    rw [hpe] at hev
    simp only [eventTablePath, Option.some.injEq, Prod.mk.injEq] at hev
    obtain ⟨rfl, rfl⟩ := hev
    simp [processEvent, hpe, hskip, hmis]
  | updateRowsEvent s' t' ts rows =>
    rw [hpe] at hev
    simp only [eventTablePath, Option.some.injEq, Prod.mk.injEq] at hev
    obtain ⟨rfl, rfl⟩ := hev
    simp [processEvent, hpe, hskip, hmis]
  | deleteRowsEvent s' t' ts rows =>
    rw [hpe] at hev
    simp only [eventTablePath, Option.some.injEq, Prod.mk.injEq] at hev
    obtain ⟨rfl, rfl⟩ := hev
    simp [processEvent, hpe, hskip, hmis]

theorem processEvent_write_matched (ctx : SyncCtx) (ls : LoopState)
    (p : PulledEvent) (s t : String) (ts : Int) (rows : List WriteRow)
    (hev : p.event = BinlogEvent.writeRowsEvent s t ts rows)
    (hmatch : (s, t) = tablePath ctx)
    (hskip : ¬(ctx.start_log_file = some p.log_file ∧
               ctx.start_log_pos = some p.log_pos)) :
    processEvent ctx ls p =
      ({ state := { (writeRowsLoop ctx ls.state ls.rows_saved rows).1 with
           log_file := some p.log_file, log_pos := some p.log_pos },
         rows_saved := ls.rows_saved + rows.length },
       (rows.map (fun r => row_to_singer_record ctx.catalog_entry
          ctx.stream_version r.values ctx.columns ctx.time_extracted)) ++
       (if (ls.rows_saved + rows.length) % UPDATE_BOOKMARK_PERIOD = 0 then
          [Message.state { (writeRowsLoop ctx ls.state ls.rows_saved rows).1 with
             log_file := some p.log_file, log_pos := some p.log_pos }] else []) ++
       [Message.state { (writeRowsLoop ctx ls.state ls.rows_saved rows).1 with
          log_file := some p.log_file, log_pos := some p.log_pos }]) := by
  rcases hw : writeRowsLoop ctx ls.state ls.rows_saved rows with ⟨st1, rs1, recs⟩
  have hrs : rs1 = ls.rows_saved + rows.length := by
    have := writeRowsLoop_rows_saved ctx rows ls.state ls.rows_saved
    rw [hw] at this; exact this
  have hms : recs = rows.map (fun r => row_to_singer_record ctx.catalog_entry
      ctx.stream_version r.values ctx.columns ctx.time_extracted) := by
    have := writeRowsLoop_msgs ctx rows ls.state ls.rows_saved
    rw [hw] at this; exact this
  simp [processEvent, hev, hskip, hmatch, hw, hrs, hms,
    write_bookmark_log_file, write_bookmark_log_pos]

theorem updateRowsLoop_state (ctx : SyncCtx) (rows : List UpdateRow) :
    ∀ st rs, (updateRowsLoop ctx st rs rows).1 = st := by
  induction rows with
  | nil => intro st rs; simp [updateRowsLoop]
  | cons r rest ih => intro st rs; simp [updateRowsLoop, ih]

theorem deleteRowsLoop_state (ctx : SyncCtx) (ts : Int) (rows : List WriteRow) :
    ∀ st rs, (deleteRowsLoop ctx ts st rs rows).1 = st := by
  induction rows with
  | nil => intro st rs; simp [deleteRowsLoop]
  | cons r rest ih => intro st rs; simp [deleteRowsLoop, ih]

theorem processEvent_update_matched (ctx : SyncCtx) (ls : LoopState)
    (p : PulledEvent) (s t : String) (ts : Int) (rows : List UpdateRow)
    (hev : p.event = BinlogEvent.updateRowsEvent s t ts rows)
    (hmatch : (s, t) = tablePath ctx)
    (hskip : ¬(ctx.start_log_file = some p.log_file ∧
               ctx.start_log_pos = some p.log_pos)) :
    processEvent ctx ls p =
      ({ state := { ls.state with
           log_file := some p.log_file, log_pos := some p.log_pos },
         rows_saved := ls.rows_saved + rows.length },
       (rows.map (fun r => row_to_singer_record ctx.catalog_entry
          ctx.stream_version r.after_values ctx.columns ctx.time_extracted)) ++
       (if (ls.rows_saved + rows.length) % UPDATE_BOOKMARK_PERIOD = 0 then
          [Message.state { ls.state with
             log_file := some p.log_file, log_pos := some p.log_pos }] else []) ++
       [Message.state { ls.state with
          log_file := some p.log_file, log_pos := some p.log_pos }]) := by
  rcases hw : updateRowsLoop ctx ls.state ls.rows_saved rows with ⟨st1, rs1, recs⟩
  have hst1 : st1 = ls.state := by
    have := updateRowsLoop_state ctx rows ls.state ls.rows_saved
    rw [hw] at this; exact this
  have hrs : rs1 = ls.rows_saved + rows.length := by
    have := updateRowsLoop_rows_saved ctx rows ls.state ls.rows_saved
    rw [hw] at this; exact this
  have hms : recs = rows.map (fun r => row_to_singer_record ctx.catalog_entry
      ctx.stream_version r.after_values ctx.columns ctx.time_extracted) := by
    have := updateRowsLoop_msgs ctx rows ls.state ls.rows_saved
    rw [hw] at this; exact this
  simp [processEvent, hev, hskip, hmatch, hw, hst1, hrs, hms,
    write_bookmark_log_file, write_bookmark_log_pos]

theorem processEvent_delete_matched (ctx : SyncCtx) (ls : LoopState)
    (p : PulledEvent) (s t : String) (ts : Int) (rows : List WriteRow)
    (hev : p.event = BinlogEvent.deleteRowsEvent s t ts rows)
    (hmatch : (s, t) = tablePath ctx)
    (hskip : ¬(ctx.start_log_file = some p.log_file ∧
               ctx.start_log_pos = some p.log_pos)) :
    processEvent ctx ls p =
      ({ state := { ls.state with
           log_file := some p.log_file, log_pos := some p.log_pos },
         rows_saved := ls.rows_saved + rows.length },
       (rows.map (fun r => row_to_singer_record ctx.catalog_entry
          ctx.stream_version
          (dictSet r.values SDC_DELETED_AT (Value.vUtcDatetime ts))
          ctx.columns ctx.time_extracted)) ++
       (if (ls.rows_saved + rows.length) % UPDATE_BOOKMARK_PERIOD = 0 then
          [Message.state { ls.state with
             log_file := some p.log_file, log_pos := some p.log_pos }] else []) ++
       [Message.state { ls.state with
          log_file := some p.log_file, log_pos := some p.log_pos }]) := by
  rcases hw : deleteRowsLoop ctx ts ls.state ls.rows_saved rows with ⟨st1, rs1, recs⟩
  have hst1 : st1 = ls.state := by
    have := deleteRowsLoop_state ctx ts rows ls.state ls.rows_saved
    rw [hw] at this; exact this
  have hrs : rs1 = ls.rows_saved + rows.length := by
    have := deleteRowsLoop_rows_saved ctx ts rows ls.state ls.rows_saved
    rw [hw] at this; exact this
  have hms : recs = rows.map (fun r => row_to_singer_record ctx.catalog_entry
      ctx.stream_version
      (dictSet r.values SDC_DELETED_AT (Value.vUtcDatetime ts))
      ctx.columns ctx.time_extracted) := by
    have := deleteRowsLoop_msgs ctx ts rows ls.state ls.rows_saved
    rw [hw] at this; exact this
  simp [processEvent, hev, hskip, hmatch, hw, hst1, hrs, hms,
    write_bookmark_log_file, write_bookmark_log_pos]

theorem runEvents_append (ctx : SyncCtx) (evs1 evs2 : List PulledEvent) :
    ∀ ls, runEvents ctx ls (evs1 ++ evs2) =
      ((runEvents ctx (runEvents ctx ls evs1).1 evs2).1,
       (runEvents ctx ls evs1).2 ++
         (runEvents ctx (runEvents ctx ls evs1).1 evs2).2) := by
  induction evs1 with
  | nil => intro ls; simp [runEvents]
  | cons p ps ih =>
    intro ls
    rcases hp : processEvent ctx ls p with ⟨ls1, ms1⟩
    simp [runEvents, hp, ih ls1]

theorem runEvents_singleton (ctx : SyncCtx) (ls : LoopState) (p : PulledEvent) :
    runEvents ctx ls [p] = ((processEvent ctx ls p).1, (processEvent ctx ls p).2) := by
  rcases hp : processEvent ctx ls p with ⟨ls1, ms1⟩
  simp [runEvents, hp]

theorem isState_row_to_singer_record (catalog_entry : CatalogEntry)
    (version : Int) (vals : Dict) (columns : List String) (time_extracted : Int) :
    Message.isState (row_to_singer_record catalog_entry version vals columns
      time_extracted) = false := by
  rw [row_to_singer_record_eq]; rfl

theorem isRecord_row_to_singer_record (catalog_entry : CatalogEntry)
    (version : Int) (vals : Dict) (columns : List String) (time_extracted : Int) :
    Message.isRecord (row_to_singer_record catalog_entry version vals columns
      time_extracted) = true := by
  rw [row_to_singer_record_eq]; rfl

/-- Every message yielded while processing one event is either a state
message or a record produced by `row_to_singer_record` for the session
stream, version, columns and extraction time. -/
theorem processEvent_mem_messages (ctx : SyncCtx) (ls : LoopState)
    (p : PulledEvent) :
    ∀ m ∈ (processEvent ctx ls p).2,
      Message.isState m = true ∨
      ∃ vals : Dict, m = Message.record ctx.catalog_entry.stream ctx.stream_version
        (vals.filter (fun kv => ctx.columns.contains kv.1)) ctx.time_extracted := by
  intro m hm
  by_cases hskip : ctx.start_log_file = some p.log_file ∧
      ctx.start_log_pos = some p.log_pos
  · rw [processEvent_skip ctx ls p hskip.1 hskip.2] at hm
    simp at hm
  · cases hpe : p.event with
    | rotateEvent nb pos =>
      rw [processEvent_rotate ctx ls p nb pos hpe hskip] at hm
      simp at hm
      left; rw [hm]; rfl
    | writeRowsEvent s t ts rows =>
      by_cases hmatch : (s, t) = tablePath ctx
      · rw [processEvent_write_matched ctx ls p s t ts rows hpe hmatch hskip] at hm
        simp only [List.mem_append, List.mem_singleton] at hm
        rcases hm with (hm | hm) | hm
        · rcases List.mem_map.mp hm with ⟨r, _, hr⟩
          right
          exact ⟨r.values, by rw [← hr, row_to_singer_record_eq]⟩
        · by_cases hz : (ls.rows_saved + rows.length) % UPDATE_BOOKMARK_PERIOD = 0
          · rw [if_pos hz] at hm; simp at hm; left; rw [hm]; rfl
          · rw [if_neg hz] at hm; simp at hm
        · left; rw [hm]; rfl
      · rw [processEvent_mismatch ctx ls p s t (by rw [hpe]; rfl) hmatch hskip] at hm
        simp at hm
        left; rw [hm]; rfl
    | updateRowsEvent s t ts rows =>
      by_cases hmatch : (s, t) = tablePath ctx
      · rw [processEvent_update_matched ctx ls p s t ts rows hpe hmatch hskip] at hm
        simp only [List.mem_append, List.mem_singleton] at hm
        rcases hm with (hm | hm) | hm
        · rcases List.mem_map.mp hm with ⟨r, _, hr⟩
          right
          exact ⟨r.after_values, by rw [← hr, row_to_singer_record_eq]⟩
        · by_cases hz : (ls.rows_saved + rows.length) % UPDATE_BOOKMARK_PERIOD = 0
          · rw [if_pos hz] at hm; simp at hm; left; rw [hm]; rfl
          · rw [if_neg hz] at hm; simp at hm
        · left; rw [hm]; rfl
      · rw [processEvent_mismatch ctx ls p s t (by rw [hpe]; rfl) hmatch hskip] at hm
        simp at hm
        left; rw [hm]; rfl
    | deleteRowsEvent s t ts rows =>
      by_cases hmatch : (s, t) = tablePath ctx
      · rw [processEvent_delete_matched ctx ls p s t ts rows hpe hmatch hskip] at hm
        simp only [List.mem_append, List.mem_singleton] at hm
        rcases hm with (hm | hm) | hm
        · rcases List.mem_map.mp hm with ⟨r, _, hr⟩
          right
          exact ⟨dictSet r.values SDC_DELETED_AT (Value.vUtcDatetime ts),
            by rw [← hr, row_to_singer_record_eq]⟩
        · by_cases hz : (ls.rows_saved + rows.length) % UPDATE_BOOKMARK_PERIOD = 0
          · rw [if_pos hz] at hm; simp at hm; left; rw [hm]; rfl
          · rw [if_neg hz] at hm; simp at hm
        · left; rw [hm]; rfl
      · rw [processEvent_mismatch ctx ls p s t (by rw [hpe]; rfl) hmatch hskip] at hm
        simp at hm
        left; rw [hm]; rfl

/-- Lifts `processEvent_mem_messages` over the whole event loop. -/
theorem runEvents_mem_messages (ctx : SyncCtx) (evs : List PulledEvent) :
    ∀ ls m, m ∈ (runEvents ctx ls evs).2 →
      Message.isState m = true ∨
      ∃ vals : Dict, m = Message.record ctx.catalog_entry.stream ctx.stream_version
        (vals.filter (fun kv => ctx.columns.contains kv.1)) ctx.time_extracted := by
  induction evs with
  | nil => intro ls m hm; simp [runEvents] at hm
  | cons p ps ih =>
    intro ls m hm
    rcases hp : processEvent ctx ls p with ⟨ls1, ms1⟩
    rw [runEvents, hp] at hm
    simp only [List.mem_append] at hm
    rcases hm with hm | hm
    · have := processEvent_mem_messages ctx ls p m
      rw [hp] at this
      exact this hm
    · exact ih ls1 m hm

/-- Shape of a successful `sync_table` session: the ActivateVersion
message first, then exactly the event-loop messages. -/
theorem sync_tableModel_ok (catalog_entry : CatalogEntry) (state : TapState)
    (columns : List String) (stream_version : Int) (inp : SyncInput)
    (msgs : List Message) (fin : TapState)
    (h : sync_tableModel catalog_entry state columns stream_version inp =
      Except.ok (msgs, fin)) :
    msgs = Message.activateVersion catalog_entry.stream stream_version ::
      (runEvents (sessionCtx catalog_entry columns stream_version state inp)
        { state := write_bookmark_version state (some stream_version),
          rows_saved := 0 } inp.events).2 := by
  unfold sync_tableModel at h
  cases h1 : verify_binlog_config inp.binlog_format inp.binlog_row_image
      catalog_entry with
  | error e => rw [h1] at h; simp [Bind.bind, Except.bind] at h
  | ok u =>
    cases h2 : verify_log_file_exists inp.binary_logs catalog_entry
        state.log_file state.log_pos with
    | error e => rw [h1, h2] at h; simp [Bind.bind, Except.bind] at h
    | ok u2 =>
      rw [h1, h2] at h
      simp only [Bind.bind, Except.bind] at h
      rcases hr : runEvents (sessionCtx catalog_entry columns stream_version
          state inp)
          { state := write_bookmark_version state (some stream_version),
            rows_saved := 0 } inp.events with ⟨lsf, ms⟩
      rw [hr] at h
      simp only [Except.ok.injEq, Prod.mk.injEq] at h
      exact h.1.symm

/-! ## Concrete sample session used by witnesses and counterexamples -/

/-- A sample catalog entry: stream `users` in database `mydb`. -/
def ceS : CatalogEntry :=
  { tap_stream_id := "mydb-users", stream := "users", database := "mydb" }

/-- A sample incoming state: resume bookmark `(bin.000001, 4)`. -/
def stS : TapState :=
  { log_file := some "bin.000001", log_pos := some 4, version := some 7 }

/-- A sample loop context over `ceS`/`stS`. -/
def ctxS : SyncCtx :=
  { catalog_entry := ceS, columns := ["id", "name", SDC_DELETED_AT],
    stream_version := 7, start_log_file := some "bin.000001",
    start_log_pos := some 4, time_extracted := 1700000000 }

/-- A sample loop state at session start. -/
def lsS : LoopState := { state := stS, rows_saved := 0 }

/-! ## C1: skip-duplicate check -/

/-- C1: every pulled event whose reader coordinates `(log_file, log_pos)`
equal the session-start bookmark is discarded — no record, no bookmark
write, no state message — and this holds at any position in the event
stream, not only for the first event. -/
theorem skip_duplicate_check (ctx : SyncCtx) (p : PulledEvent)
    (h1 : ctx.start_log_file = some p.log_file)
    (h2 : ctx.start_log_pos = some p.log_pos) :
    (∀ ls, processEvent ctx ls p = (ls, [])) ∧
    (∀ ls evs1 evs2,
      runEvents ctx ls (evs1 ++ p :: evs2) = runEvents ctx ls (evs1 ++ evs2)) := by
  have hsk : ∀ ls, processEvent ctx ls p = (ls, []) :=
    fun ls => processEvent_skip ctx ls p h1 h2
  refine ⟨hsk, ?_⟩
  intro ls evs1 evs2
  induction evs1 generalizing ls with
  | nil =>
    rcases hr : runEvents ctx ls evs2 with ⟨a, b⟩
    simp [runEvents, hsk, hr]
  | cons q qs ih =>
    rcases hq : processEvent ctx ls q with ⟨ls1, ms1⟩
    simp [runEvents, hq, ih]

/-- A concrete event sitting exactly at `ctxS`'s starting bookmark. -/
def pW1 : PulledEvent :=
  { log_file := "bin.000001", log_pos := 4,
    event := BinlogEvent.writeRowsEvent "mydb" "users" 1650000000
      [{ values := [("id", Value.vInt 1)] }] }

/-- Witness for C1: the skipped event at the starting bookmark yields
nothing and leaves the loop state untouched. -/
theorem skip_duplicate_check_witness :
    processEvent ctxS lsS pW1 = (lsS, []) :=
  (skip_duplicate_check ctxS pW1 rfl rfl).1 lsS

/-! ## C2: checkpoint threshold cadence -/

/-- C2 (amended): the `rows_saved % UPDATE_BOOKMARK_PERIOD` check of
lines 212-213 runs once per matched row event, after all of the event's
rows.  A matched RowWrite event yields exactly one extra
(threshold-triggered) state message precisely when the cumulative
counter after the whole event is an exact multiple of 1000, on top of
the per-event heartbeat. -/
theorem threshold_checkpoint_once_per_event (ctx : SyncCtx) (ls : LoopState)
    (p : PulledEvent) (s t : String) (ts : Int) (rows : List WriteRow)
    (hev : p.event = BinlogEvent.writeRowsEvent s t ts rows)
    (hmatch : (s, t) = tablePath ctx)
    (hskip : ¬(ctx.start_log_file = some p.log_file ∧
               ctx.start_log_pos = some p.log_pos)) :
    (processEvent ctx ls p).1.rows_saved = ls.rows_saved + rows.length ∧
    (processEvent ctx ls p).2.countP Message.isState =
      (if (ls.rows_saved + rows.length) % UPDATE_BOOKMARK_PERIOD = 0
        then 2 else 1) := by
  rw [processEvent_write_matched ctx ls p s t ts rows hev hmatch hskip]
  refine ⟨rfl, ?_⟩
  simp only [List.countP_append]
  have hmap : (rows.map (fun r => row_to_singer_record ctx.catalog_entry
      ctx.stream_version r.values ctx.columns ctx.time_extracted)).countP
      Message.isState = 0 := by
    rw [List.countP_eq_zero]
    intro m hm
    rcases List.mem_map.mp hm with ⟨r, _, hr⟩
    rw [← hr]
    simp [isState_row_to_singer_record]
  rw [hmap]
  by_cases hz : (ls.rows_saved + rows.length) % UPDATE_BOOKMARK_PERIOD = 0
  · rw [if_pos hz, if_pos hz]
    simp [List.countP_cons, Message.isState]
  · rw [if_neg hz, if_neg hz]
    simp [List.countP_cons, Message.isState]

/-- A single-row matched write event away from the starting bookmark. -/
def pW2 : PulledEvent :=
  { log_file := "bin.000001", log_pos := 340,
    event := BinlogEvent.writeRowsEvent "mydb" "users" 1650000000
      [{ values := [("id", Value.vInt 1), ("name", Value.vStr "a")] }] }

/-- Witness for the amended C2 at a concrete one-row event: the counter
advances by one and only the heartbeat state message is emitted. -/
theorem threshold_checkpoint_once_per_event_witness :
    (processEvent ctxS lsS pW2).1.rows_saved = lsS.rows_saved +
      ([{ values := [("id", Value.vInt 1), ("name", Value.vStr "a")] }] :
        List WriteRow).length ∧
    (processEvent ctxS lsS pW2).2.countP Message.isState =
      (if (lsS.rows_saved +
          ([{ values := [("id", Value.vInt 1), ("name", Value.vStr "a")] }] :
            List WriteRow).length) % UPDATE_BOOKMARK_PERIOD = 0
        then 2 else 1) :=
  threshold_checkpoint_once_per_event ctxS lsS pW2 "mydb" "users" 1650000000
    [{ values := [("id", Value.vInt 1), ("name", Value.vStr "a")] }]
    rfl rfl (by decide)

/-- State-message count of one matched RowWrite event: the heartbeat,
plus the threshold checkpoint exactly when the post-event counter is a
multiple of `UPDATE_BOOKMARK_PERIOD`. -/
theorem processEvent_write_countState (ctx : SyncCtx) (ls : LoopState)
    (p : PulledEvent) (s t : String) (ts : Int) (rows : List WriteRow)
    (hev : p.event = BinlogEvent.writeRowsEvent s t ts rows)
    (hmatch : (s, t) = tablePath ctx)
    (hskip : ¬(ctx.start_log_file = some p.log_file ∧
               ctx.start_log_pos = some p.log_pos)) :
    (processEvent ctx ls p).2.countP Message.isState =
      (if (ls.rows_saved + rows.length) % UPDATE_BOOKMARK_PERIOD = 0
        then 2 else 1) := by
  rw [processEvent_write_matched ctx ls p s t ts rows hev hmatch hskip]
  simp only [List.countP_append]
  have hmap : (rows.map (fun r => row_to_singer_record ctx.catalog_entry
      ctx.stream_version r.values ctx.columns ctx.time_extracted)).countP
      Message.isState = 0 := by
    rw [List.countP_eq_zero]
    intro m hm
    rcases List.mem_map.mp hm with ⟨r, _, hr⟩
    rw [← hr]
    simp [isState_row_to_singer_record]
  rw [hmap]
  by_cases hz : (ls.rows_saved + rows.length) % UPDATE_BOOKMARK_PERIOD = 0
  · rw [if_pos hz, if_pos hz]
    simp [List.countP_cons, Message.isState]
  · rw [if_neg hz, if_neg hz]
    simp [List.countP_cons, Message.isState]

/-- Record count of one matched RowWrite event: one record per row. -/
theorem processEvent_write_countRecord (ctx : SyncCtx) (ls : LoopState)
    (p : PulledEvent) (s t : String) (ts : Int) (rows : List WriteRow)
    (hev : p.event = BinlogEvent.writeRowsEvent s t ts rows)
    (hmatch : (s, t) = tablePath ctx)
    (hskip : ¬(ctx.start_log_file = some p.log_file ∧
               ctx.start_log_pos = some p.log_pos)) :
    (processEvent ctx ls p).2.countP Message.isRecord = rows.length := by
  rw [processEvent_write_matched ctx ls p s t ts rows hev hmatch hskip]
  simp only [List.countP_append]
  have hmap : (rows.map (fun r => row_to_singer_record ctx.catalog_entry
      ctx.stream_version r.values ctx.columns ctx.time_extracted)).countP
      Message.isRecord = rows.length := by
    rw [show rows.length = (rows.map (fun r => row_to_singer_record
        ctx.catalog_entry ctx.stream_version r.values ctx.columns
        ctx.time_extracted)).length by rw [List.length_map]]
    rw [List.countP_eq_length]
    intro m hm
    rcases List.mem_map.mp hm with ⟨r, _, hr⟩
    rw [← hr]
    simp [isRecord_row_to_singer_record]
  rw [hmap]
  by_cases hz : (ls.rows_saved + rows.length) % UPDATE_BOOKMARK_PERIOD = 0
  · rw [if_pos hz]
    simp [List.countP_cons, Message.isRecord]
  · rw [if_neg hz]
    simp [List.countP_cons, Message.isRecord]

/-- The row used 2500 times in the cadence counterexample. -/
def rowC2 : WriteRow := { values := [("id", Value.vInt 1)] }

/-- The 2500 copies of `rowC2`. -/
def rowsC2 : List WriteRow := List.replicate 2500 rowC2

theorem rowsC2_length : rowsC2.length = 2500 := by
  unfold rowsC2
  apply List.length_replicate

/-- One RowWrite event carrying 2500 matched rows. -/
def eventC2 : PulledEvent :=
  { log_file := "bin.000001", log_pos := 900,
    event := BinlogEvent.writeRowsEvent "mydb" "users" 1650000000 rowsC2 }

/-- Inputs for the cadence counterexample session: valid configuration,
resume position inside the retained log, one 2500-row event. -/
def inpC2 : SyncInput :=
  { binlog_format := "ROW", binlog_row_image := "FULL",
    binary_logs := [("bin.000001", 2000)], events := [eventC2],
    now := 1700000000 }

/-- C2 counterexample: a session emitting exactly 2500 matched rows via
RowWrite events (here one event) produces 2500 records but exactly ONE
state message — the per-event heartbeat.  No threshold-triggered
checkpoint fires at row 1000 or row 2000, because the
`rows_saved % 1000` check runs once per event after all its rows and
2500 is not a multiple of 1000: the claimed cadence is not independent
of batching. -/
theorem checkpoint_cadence_counterexample :
    ∃ msgs fin,
      sync_tableModel ceS stS ["id", "name", SDC_DELETED_AT] 7 inpC2 =
        Except.ok (msgs, fin) ∧
      msgs.countP Message.isState = 1 ∧
      msgs.countP Message.isRecord = 2500 := by
  have hone := runEvents_singleton
    (sessionCtx ceS ["id", "name", SDC_DELETED_AT] 7 stS inpC2)
    { state := write_bookmark_version stS (some 7), rows_saved := 0 } eventC2
  have hcs := processEvent_write_countState
    (sessionCtx ceS ["id", "name", SDC_DELETED_AT] 7 stS inpC2)
    { state := write_bookmark_version stS (some 7), rows_saved := 0 }
    eventC2 "mydb" "users" 1650000000 rowsC2
    rfl rfl (by decide)
  have hcr := processEvent_write_countRecord
    (sessionCtx ceS ["id", "name", SDC_DELETED_AT] 7 stS inpC2)
    { state := write_bookmark_version stS (some 7), rows_saved := 0 }
    eventC2 "mydb" "users" 1650000000 rowsC2
    rfl rfl (by decide)
  have hsum : ({ state := write_bookmark_version stS (some 7), rows_saved := 0 } : LoopState).rows_saved + rowsC2.length = 2500 := by
    rw [rowsC2_length]
  have hmod : ¬(({ state := write_bookmark_version stS (some 7), rows_saved := 0 } : LoopState).rows_saved + rowsC2.length) % UPDATE_BOOKMARK_PERIOD = 0 := by
    rw [hsum]; decide
  rw [if_neg hmod] at hcs
  rw [rowsC2_length] at hcr
  refine ⟨Message.activateVersion ceS.stream 7 ::
      (processEvent (sessionCtx ceS ["id", "name", SDC_DELETED_AT] 7 stS inpC2)
        { state := write_bookmark_version stS (some 7), rows_saved := 0 }
        eventC2).2,
    (processEvent (sessionCtx ceS ["id", "name", SDC_DELETED_AT] 7 stS inpC2)
        { state := write_bookmark_version stS (some 7), rows_saved := 0 }
        eventC2).1.state, ?_, ?_, ?_⟩
  · unfold sync_tableModel
    rw [show verify_binlog_config inpC2.binlog_format inpC2.binlog_row_image
        ceS = Except.ok () from rfl]
    rw [show verify_log_file_exists inpC2.binary_logs ceS stS.log_file
        stS.log_pos = Except.ok () from rfl]
    simp only [Bind.bind, Except.bind]
    rw [show inpC2.events = [eventC2] from rfl]
    rw [hone]
  · rw [List.countP_cons, hcs]
    rfl
  · rw [List.countP_cons, hcr]
    rfl

/-! ## C3: final bookmark position after a matched row event -/

/-- C3: after the processing of any matched-table row event that is not
discarded by the skip check, the bookmark's `log_file` and `log_pos`
equal the reader's post-event coordinates; the intermediate `log_file`
write inside the RowWrite branch (lines 173-176) has no effect on the
final value. -/
theorem bookmark_advances_to_reader_coordinates (ctx : SyncCtx)
    (ls : LoopState) (p : PulledEvent) (s t : String)
    (hev : eventTablePath p.event = some (s, t))
    (hmatch : (s, t) = tablePath ctx)
    (hskip : ¬(ctx.start_log_file = some p.log_file ∧
               ctx.start_log_pos = some p.log_pos)) :
    (processEvent ctx ls p).1.state.log_file = some p.log_file ∧
    (processEvent ctx ls p).1.state.log_pos = some p.log_pos := by
  cases hpe : p.event with
  | rotateEvent nb pos => rw [hpe] at hev; simp [eventTablePath] at hev
  | writeRowsEvent s' t' ts rows =>
    rw [hpe] at hev
    simp only [eventTablePath, Option.some.injEq, Prod.mk.injEq] at hev
    obtain ⟨rfl, rfl⟩ := hev
    rw [processEvent_write_matched ctx ls p s' t' ts rows hpe hmatch hskip]
    exact ⟨rfl, rfl⟩
  | updateRowsEvent s' t' ts rows =>
    rw [hpe] at hev
    simp only [eventTablePath, Option.some.injEq, Prod.mk.injEq] at hev
    obtain ⟨rfl, rfl⟩ := hev
    rw [processEvent_update_matched ctx ls p s' t' ts rows hpe hmatch hskip]
    exact ⟨rfl, rfl⟩
  | deleteRowsEvent s' t' ts rows =>
    rw [hpe] at hev
    simp only [eventTablePath, Option.some.injEq, Prod.mk.injEq] at hev
    obtain ⟨rfl, rfl⟩ := hev
    rw [processEvent_delete_matched ctx ls p s' t' ts rows hpe hmatch hskip]
    exact ⟨rfl, rfl⟩

/-- A matched update event at reader coordinates `(bin.000002, 700)`. -/
def pW3 : PulledEvent :=
  { log_file := "bin.000002", log_pos := 700,
    event := BinlogEvent.updateRowsEvent "mydb" "users" 1650000000
      [{ before_values := [("id", Value.vInt 1), ("name", Value.vStr "a")],
         after_values := [("id", Value.vInt 1), ("name", Value.vStr "b")] }] }

/-- Witness for C3 at a concrete matched update event. -/
theorem bookmark_advances_to_reader_coordinates_witness :
    (processEvent ctxS lsS pW3).1.state.log_file = some "bin.000002" ∧
    (processEvent ctxS lsS pW3).1.state.log_pos = some 700 :=
  bookmark_advances_to_reader_coordinates ctxS lsS pW3 "mydb" "users"
    rfl rfl (by decide)

/-! ## C4: table isolation and rotation bookmark updates -/

/-- A rotation event pulled exactly at `ctxS`'s starting bookmark. -/
def pC4 : PulledEvent :=
  { log_file := "bin.000001", log_pos := 4,
    event := BinlogEvent.rotateEvent "bin.000002" 500 }

/-- C4 counterexample: a Rotation event pulled exactly at the
session-start bookmark is discarded by the skip-duplicate check before
the rotation branch runs, so it does NOT update the bookmark — refuting
the clause that Rotation events always update `log_file`/`log_pos`. -/
theorem table_isolation_counterexample :
    (processEvent ctxS lsS pC4).1.state.log_file = some "bin.000001" ∧
    (processEvent ctxS lsS pC4).1.state.log_pos = some 4 ∧
    (processEvent ctxS lsS pC4).2 = [] := by
  decide

/-- C4 (amended): a non-Rotation event whose `(schema, table)` differs
from the tracked pair mutates no bookmark field and emits no record,
regardless of kind; a Rotation event that is not discarded by the
skip-duplicate check always updates the bookmark's `log_file` and
`log_pos` to the rotation target. -/
theorem table_isolation (ctx : SyncCtx) (ls : LoopState) (p : PulledEvent) :
    (∀ s t, eventTablePath p.event = some (s, t) → (s, t) ≠ tablePath ctx →
      ((processEvent ctx ls p).1.state = ls.state ∧
       (processEvent ctx ls p).2.countP Message.isRecord = 0)) ∧
    (∀ nb pos, p.event = BinlogEvent.rotateEvent nb pos →
      ¬(ctx.start_log_file = some p.log_file ∧
        ctx.start_log_pos = some p.log_pos) →
      ((processEvent ctx ls p).1.state.log_file = some nb ∧
       (processEvent ctx ls p).1.state.log_pos = some pos)) := by
  constructor
  · intro s t hev hmis
    by_cases hskip : ctx.start_log_file = some p.log_file ∧
        ctx.start_log_pos = some p.log_pos
    · rw [processEvent_skip ctx ls p hskip.1 hskip.2]
      exact ⟨rfl, rfl⟩
    · rw [processEvent_mismatch ctx ls p s t hev hmis hskip]
      refine ⟨rfl, ?_⟩
      simp [List.countP_cons, Message.isRecord]
  · intro nb pos hev hskip
    rw [processEvent_rotate ctx ls p nb pos hev hskip]
    exact ⟨rfl, rfl⟩

/-- A write event for another table, and a non-skipped rotation. -/
def pMis : PulledEvent :=
  { log_file := "bin.000001", log_pos := 600,
    event := BinlogEvent.writeRowsEvent "otherdb" "users" 1650000000
      [{ values := [("id", Value.vInt 9)] }] }

/-- A rotation event away from the starting bookmark. -/
def pRotW : PulledEvent :=
  { log_file := "bin.000002", log_pos := 1234,
    event := BinlogEvent.rotateEvent "bin.000002" 1234 }

/-- Witness for the amended C4: a concrete mismatched write leaves the
state unchanged and emits no record; a concrete non-skipped rotation
updates the bookmark. -/
theorem table_isolation_witness :
    ((processEvent ctxS lsS pMis).1.state = lsS.state ∧
     (processEvent ctxS lsS pMis).2.countP Message.isRecord = 0) ∧
    ((processEvent ctxS lsS pRotW).1.state.log_file = some "bin.000002" ∧
     (processEvent ctxS lsS pRotW).1.state.log_pos = some 1234) :=
  ⟨(table_isolation ctxS lsS pMis).1 "otherdb" "users" rfl (by decide),
   (table_isolation ctxS lsS pRotW).2 "bin.000002" 1234 rfl (by decide)⟩

/-! ## C5: delete tagging and row sources -/

/-- Python dict assignment always leaves the assigned pair in the dict. -/
theorem dictSet_mem_self (d : Dict) (k : String) (v : Value) :
    (k, v) ∈ dictSet d k v := by
  unfold dictSet
  by_cases h : d.any (fun kv => kv.1 = k)
  · rw [if_pos h]
    simp only [List.any_eq_true, decide_eq_true_eq] at h
    obtain ⟨kv, hkv, hk⟩ := h
    exact List.mem_map.mpr ⟨kv, hkv, by simp [hk]⟩
  · rw [if_neg h]
    simp

/-- C5: every record emitted for a matched RowDelete event carries
`_sdc_deleted_at` equal to the event timestamp converted to UTC
(provided the column list admits it, as `add_automatic_properties`
arranges); RowWrite records are built exactly from each row's values,
and RowUpdate records exactly from each row's after-values. -/
theorem delete_tagging_and_row_sources (ctx : SyncCtx) (ls : LoopState)
    (p : PulledEvent) (s t : String) (ts : Int)
    (hmatch : (s, t) = tablePath ctx)
    (hskip : ¬(ctx.start_log_file = some p.log_file ∧
               ctx.start_log_pos = some p.log_pos)) :
    (∀ rows, p.event = BinlogEvent.deleteRowsEvent s t ts rows →
      SDC_DELETED_AT ∈ ctx.columns →
      ∀ strm v vals te,
        Message.record strm v vals te ∈ (processEvent ctx ls p).2 →
        (SDC_DELETED_AT, Value.vUtcDatetime ts) ∈ vals) ∧
    (∀ rows, p.event = BinlogEvent.writeRowsEvent s t ts rows →
      (processEvent ctx ls p).2.filter Message.isRecord = rows.map (fun r =>
        row_to_singer_record ctx.catalog_entry ctx.stream_version r.values
          ctx.columns ctx.time_extracted)) ∧
    (∀ rows, p.event = BinlogEvent.updateRowsEvent s t ts rows →
      (processEvent ctx ls p).2.filter Message.isRecord = rows.map (fun r =>
        row_to_singer_record ctx.catalog_entry ctx.stream_version
          r.after_values ctx.columns ctx.time_extracted)) ∧
    (∀ cols0 : List String, SDC_DELETED_AT ∈ add_automatic_properties cols0) := by
  refine ⟨?_, ?_, ?_, ?_⟩
  · intro rows hev hcols strm v vals te hmem
    rw [processEvent_delete_matched ctx ls p s t ts rows hev hmatch hskip] at hmem
    simp only [List.mem_append, List.mem_singleton] at hmem
    rcases hmem with (hmem | hmem) | hmem
    · rcases List.mem_map.mp hmem with ⟨r, _, hr⟩
      rw [row_to_singer_record_eq] at hr
      rw [Message.record.injEq] at hr
      rw [← hr.2.2.1]
      refine List.mem_filter.mpr ⟨dictSet_mem_self r.values SDC_DELETED_AT
        (Value.vUtcDatetime ts), ?_⟩
      exact List.elem_eq_true_of_mem hcols
    · by_cases hz : (ls.rows_saved + rows.length) % UPDATE_BOOKMARK_PERIOD = 0
      · rw [if_pos hz] at hmem; simp at hmem
      · rw [if_neg hz] at hmem; simp at hmem
    · simp at hmem
  · intro rows hev
    rw [processEvent_write_matched ctx ls p s t ts rows hev hmatch hskip]
    rw [List.filter_append, List.filter_append]
    have h1 : (rows.map (fun r => row_to_singer_record ctx.catalog_entry
        ctx.stream_version r.values ctx.columns
        ctx.time_extracted)).filter Message.isRecord = rows.map (fun r =>
          row_to_singer_record ctx.catalog_entry ctx.stream_version r.values
            ctx.columns ctx.time_extracted) := by
      rw [List.filter_eq_self]
      intro m hm
      rcases List.mem_map.mp hm with ⟨r, _, hr⟩
      rw [← hr]
      exact isRecord_row_to_singer_record ctx.catalog_entry ctx.stream_version
        r.values ctx.columns ctx.time_extracted
    rw [h1]
    by_cases hz : (ls.rows_saved + rows.length) % UPDATE_BOOKMARK_PERIOD = 0
    · rw [if_pos hz]
      simp [Message.isRecord]
    · rw [if_neg hz]
      simp [Message.isRecord]
  · intro rows hev
    rw [processEvent_update_matched ctx ls p s t ts rows hev hmatch hskip]
    rw [List.filter_append, List.filter_append]
    have h1 : (rows.map (fun r => row_to_singer_record ctx.catalog_entry
        ctx.stream_version r.after_values ctx.columns
        ctx.time_extracted)).filter Message.isRecord = rows.map (fun r =>
          row_to_singer_record ctx.catalog_entry ctx.stream_version
            r.after_values ctx.columns ctx.time_extracted) := by
      rw [List.filter_eq_self]
      intro m hm
      rcases List.mem_map.mp hm with ⟨r, _, hr⟩
      rw [← hr]
      exact isRecord_row_to_singer_record ctx.catalog_entry ctx.stream_version
        r.after_values ctx.columns ctx.time_extracted
    rw [h1]
    by_cases hz : (ls.rows_saved + rows.length) % UPDATE_BOOKMARK_PERIOD = 0
    · rw [if_pos hz]
      simp [Message.isRecord]
    · rw [if_neg hz]
      simp [Message.isRecord]
  · intro cols0
    simp [add_automatic_properties]

/-- A matched delete event with one row. -/
def pDel : PulledEvent :=
  { log_file := "bin.000001", log_pos := 450,
    event := BinlogEvent.deleteRowsEvent "mydb" "users" 1650000000
      [{ values := [("id", Value.vInt 5)] }] }

/-- Witness for C5 at concrete delete, write and update events. -/
theorem delete_tagging_and_row_sources_witness :
    ((SDC_DELETED_AT, Value.vUtcDatetime 1650000000) ∈
      ([("id", Value.vInt 5), (SDC_DELETED_AT, Value.vUtcDatetime 1650000000)] :
        List (String × Value))) ∧
    ((processEvent ctxS lsS pW2).2.filter Message.isRecord =
      ([{ values := [("id", Value.vInt 1), ("name", Value.vStr "a")] }] :
        List WriteRow).map (fun r =>
          row_to_singer_record ctxS.catalog_entry ctxS.stream_version r.values
            ctxS.columns ctxS.time_extracted)) ∧
    ((processEvent ctxS lsS pW3).2.filter Message.isRecord =
      ([{ before_values := [("id", Value.vInt 1), ("name", Value.vStr "a")],
          after_values := [("id", Value.vInt 1), ("name", Value.vStr "b")] }] :
        List UpdateRow).map (fun r =>
          row_to_singer_record ctxS.catalog_entry ctxS.stream_version
            r.after_values ctxS.columns ctxS.time_extracted)) :=
  ⟨(delete_tagging_and_row_sources ctxS lsS pDel "mydb" "users" 1650000000
      rfl (by decide)).1 [{ values := [("id", Value.vInt 5)] }] rfl (by decide)
      "users" 7 [("id", Value.vInt 5),
        (SDC_DELETED_AT, Value.vUtcDatetime 1650000000)] 1700000000 (by decide),
   (delete_tagging_and_row_sources ctxS lsS pW2 "mydb" "users" 1650000000
      rfl (by decide)).2.1
      [{ values := [("id", Value.vInt 1), ("name", Value.vStr "a")] }] rfl,
   (delete_tagging_and_row_sources ctxS lsS pW3 "mydb" "users" 1650000000
      rfl (by decide)).2.2.1
      [{ before_values := [("id", Value.vInt 1), ("name", Value.vStr "a")],
         after_values := [("id", Value.vInt 1), ("name", Value.vStr "b")] }] rfl⟩

/-! ## C8: checkpoints are immutable snapshots -/

/-- Every state message yielded while processing one event carries the
post-event state, i.e. the live state at the moment of emission. -/
theorem processEvent_state_snapshot (ctx : SyncCtx) (ls : LoopState)
    (p : PulledEvent) (st : TapState)
    (hm : Message.state st ∈ (processEvent ctx ls p).2) :
    st = (processEvent ctx ls p).1.state := by
  by_cases hskip : ctx.start_log_file = some p.log_file ∧
      ctx.start_log_pos = some p.log_pos
  · rw [processEvent_skip ctx ls p hskip.1 hskip.2] at hm
    simp at hm
  · cases hpe : p.event with
    | rotateEvent nb pos =>
      rw [processEvent_rotate ctx ls p nb pos hpe hskip] at hm ⊢
      simp at hm
      rw [hm]
    | writeRowsEvent s t ts rows =>
      by_cases hmatch : (s, t) = tablePath ctx
      · rw [processEvent_write_matched ctx ls p s t ts rows hpe hmatch hskip]
          at hm ⊢
        simp only [List.mem_append, List.mem_singleton] at hm
        rcases hm with (hm | hm) | hm
        · rcases List.mem_map.mp hm with ⟨r, _, hr⟩
          rw [row_to_singer_record_eq] at hr
          simp at hr
        · by_cases hz : (ls.rows_saved + rows.length) %
              UPDATE_BOOKMARK_PERIOD = 0
          · rw [if_pos hz] at hm
            simp at hm
            rw [hm]
          · rw [if_neg hz] at hm
            simp at hm
        · simp at hm
          rw [hm]
      · rw [processEvent_mismatch ctx ls p s t (by rw [hpe]; rfl) hmatch hskip]
          at hm ⊢
        simp at hm
        rw [hm]
    | updateRowsEvent s t ts rows =>
      by_cases hmatch : (s, t) = tablePath ctx
      · rw [processEvent_update_matched ctx ls p s t ts rows hpe hmatch hskip]
          at hm ⊢
        simp only [List.mem_append, List.mem_singleton] at hm
        rcases hm with (hm | hm) | hm
        · rcases List.mem_map.mp hm with ⟨r, _, hr⟩
          rw [row_to_singer_record_eq] at hr
          simp at hr
        · by_cases hz : (ls.rows_saved + rows.length) %
              UPDATE_BOOKMARK_PERIOD = 0
          · rw [if_pos hz] at hm
            simp at hm
            rw [hm]
          · rw [if_neg hz] at hm
            simp at hm
        · simp at hm
          rw [hm]
      · rw [processEvent_mismatch ctx ls p s t (by rw [hpe]; rfl) hmatch hskip]
          at hm ⊢
        simp at hm
        rw [hm]
    | deleteRowsEvent s t ts rows =>
      by_cases hmatch : (s, t) = tablePath ctx
      · rw [processEvent_delete_matched ctx ls p s t ts rows hpe hmatch hskip]
          at hm ⊢
        simp only [List.mem_append, List.mem_singleton] at hm
        rcases hm with (hm | hm) | hm
        · rcases List.mem_map.mp hm with ⟨r, _, hr⟩
          rw [row_to_singer_record_eq] at hr
          simp at hr
        · by_cases hz : (ls.rows_saved + rows.length) %
              UPDATE_BOOKMARK_PERIOD = 0
          · rw [if_pos hz] at hm
            simp at hm
            rw [hm]
          · rw [if_neg hz] at hm
            simp at hm
        · simp at hm
          rw [hm]
      · rw [processEvent_mismatch ctx ls p s t (by rw [hpe]; rfl) hmatch hskip]
          at hm ⊢
        simp at hm
        rw [hm]

/-- C8: checkpoint payloads are independent snapshots: in the pure
embedding `copy.deepcopy` means each state message holds the state value
at emission, so processing further events can only append messages —
it never alters an already-emitted checkpoint — and every state message
emitted during an event equals the live state right after that event. -/
theorem checkpoint_deep_copy (ctx : SyncCtx) :
    (∀ ls evs extra, ∃ more,
      (runEvents ctx ls (evs ++ extra)).2 = (runEvents ctx ls evs).2 ++ more) ∧
    (∀ ls p st, Message.state st ∈ (processEvent ctx ls p).2 →
      st = (processEvent ctx ls p).1.state) :=
  ⟨fun ls evs extra => ⟨(runEvents ctx (runEvents ctx ls evs).1 extra).2,
      by rw [runEvents_append]⟩,
   fun ls p st hm => processEvent_state_snapshot ctx ls p st hm⟩

/-- The state carried by the heartbeat of the rotation `pRotW`. -/
def stRotW : TapState :=
  { log_file := some "bin.000002", log_pos := some 1234, version := some 7 }

/-- Witness for C8: a concrete two-event split is append-only, and the
rotation heartbeat carries the post-event state. -/
theorem checkpoint_deep_copy_witness :
    (∃ more, (runEvents ctxS lsS ([pW2] ++ [pW3])).2 =
      (runEvents ctxS lsS [pW2]).2 ++ more) ∧
    stRotW = (processEvent ctxS lsS pRotW).1.state :=
  ⟨(checkpoint_deep_copy ctxS).1 lsS [pW2] [pW3],
   (checkpoint_deep_copy ctxS).2 lsS pRotW stRotW (by decide)⟩

/-! ## C6: configuration verification -/

/-- With pairwise-distinct log file names, a name determines its tail. -/
theorem nodup_keys_snd_eq {l : List (String × Int)}
    (h : (l.map Prod.fst).Nodup) {a : String} {b c : Int}
    (hb : (a, b) ∈ l) (hc : (a, c) ∈ l) : b = c := by
  induction l with
  | nil => cases hb
  | cons x xs ih =>
    rw [List.map_cons, List.nodup_cons] at h
    rcases List.mem_cons.mp hb with hb1 | hb1 <;>
      rcases List.mem_cons.mp hc with hc1 | hc1
    · rw [← hb1] at hc1
      exact (Prod.ext_iff.mp hc1).2.symm
    · exfalso
      apply h.1
      rw [← hb1]
      exact List.mem_map.mpr ⟨(a, c), hc1, rfl⟩
    · exfalso
      apply h.1
      rw [← hc1]
      exact List.mem_map.mpr ⟨(a, b), hb1, rfl⟩
    · exact ih h.2 hb1 hc1

/-- C6: verification runs before any event streaming and fails exactly
when the binlog format is not ROW, the row image is not FULL, the
requested log file is not retained, or the requested position exceeds
that file's tail; each failure message names the stream and the
observed value, and a failure aborts the session with no message
emitted. -/
theorem config_verification_gates (fmt img : String) (ce : CatalogEntry)
    (logs : List (String × Int)) (lf : String) (lp : Int) (st : TapState)
    (cols : List String) (sv : Int) (inp : SyncInput) :
    (verify_binlog_config fmt img ce = Except.ok () ↔
      (fmt = "ROW" ∧ img = "FULL")) ∧
    ((logs.map Prod.fst).Nodup →
      (verify_log_file_exists logs ce (some lf) (some lp) = Except.ok () ↔
        ∃ tail, (lf, tail) ∈ logs ∧ lp ≤ tail)) ∧
    (fmt ≠ "ROW" → verify_binlog_config fmt img ce = Except.error
      ("Unable to replicate stream(" ++ (ce.stream ++
        (") with binlog because binlog_format is not set to \x27ROW\x27: " ++
          (fmt ++ "."))))) ∧
    (fmt = "ROW" → img ≠ "FULL" → verify_binlog_config fmt img ce =
      Except.error ("Unable to replicate stream(" ++ (ce.stream ++
        (") with binlog because binlog_row_image is not set to \x27FULL\x27: " ++
          (img ++ "."))))) ∧
    (lf ∉ logs.map Prod.fst →
      verify_log_file_exists logs ce (some lf) (some lp) = Except.error
        ("Unable to replicate stream(" ++ (ce.stream ++
          (") with binlog because log file " ++
            (lf ++ " does not exist."))))) ∧
    (∀ e1 rest, logs.filter (fun log => some log.1 = some lf) = e1 :: rest →
      lp > e1.2 →
      verify_log_file_exists logs ce (some lf) (some lp) = Except.error
        ("Unable to replicate stream(" ++ (ce.stream ++
          (") with binlog because requested position (" ++ (toString lp ++
            (") for log file " ++ (lf ++
              (" is greater than current position (" ++
                (toString e1.2 ++ ")."))))))))) ∧
    (∀ e, verify_binlog_config inp.binlog_format inp.binlog_row_image ce =
        Except.error e →
      sync_tableModel ce st cols sv inp = Except.error e) ∧
    (∀ e, verify_binlog_config inp.binlog_format inp.binlog_row_image ce =
        Except.ok () →
      verify_log_file_exists inp.binary_logs ce st.log_file st.log_pos =
        Except.error e →
      sync_tableModel ce st cols sv inp = Except.error e) := by
  refine ⟨?_, ?_, ?_, ?_, ?_, ?_, ?_, ?_⟩
  · constructor
    · intro hok
      unfold verify_binlog_config at hok
      by_cases h1 : fmt = "ROW"
      · by_cases h2 : img = "FULL"
        · exact ⟨h1, h2⟩
        · rw [if_neg (not_not_intro h1), if_pos h2] at hok
          simp at hok
      · rw [if_pos h1] at hok
        simp at hok
    · rintro ⟨h1, h2⟩
      unfold verify_binlog_config
      rw [if_neg (not_not_intro h1), if_neg (not_not_intro h2)]
  · intro hnd
    constructor
    · intro hok
      unfold verify_log_file_exists at hok
      cases hfil : logs.filter (fun log => some log.1 = some lf) with
      | nil => rw [hfil] at hok; simp at hok
      | cons e1 rest =>
        rw [hfil] at hok
        have hok2 : (if lp > e1.2 then Except.error (log_pos_ahead_error
            ce.stream lp (some lf) e1.2) else Except.ok ()) = Except.ok () := hok
        have he1 : e1 ∈ logs.filter (fun log => some log.1 = some lf) := by
          rw [hfil]; exact List.mem_cons_self e1 rest
        have hmem1 := List.mem_of_mem_filter he1
        have hkey := List.of_mem_filter he1
        simp only [decide_eq_true_eq, Option.some.injEq] at hkey
        by_cases hgt : lp > e1.2
        · rw [if_pos hgt] at hok2
          simp at hok2
        · refine ⟨e1.2, ?_, by omega⟩
          rw [← hkey]
          simpa using hmem1
    · rintro ⟨tail, hmem, hle⟩
      have hmemf : (lf, tail) ∈ logs.filter (fun log => some log.1 = some lf) :=
        List.mem_filter.mpr ⟨hmem, by simp⟩
      unfold verify_log_file_exists
      cases hfil : logs.filter (fun log => some log.1 = some lf) with
      | nil => rw [hfil] at hmemf; cases hmemf
      | cons e1 rest =>
        have he1 : e1 ∈ logs.filter (fun log => some log.1 = some lf) := by
          rw [hfil]; exact List.mem_cons_self e1 rest
        have hmem1 := List.mem_of_mem_filter he1
        have hkey := List.of_mem_filter he1
        simp only [decide_eq_true_eq, Option.some.injEq] at hkey
        have h12 : (lf, e1.2) ∈ logs := by
          rw [← hkey]; simpa using hmem1
        have h2t : e1.2 = tail := nodup_keys_snd_eq hnd h12 hmem
        show (if lp > e1.2 then Except.error (log_pos_ahead_error ce.stream lp
          (some lf) e1.2) else Except.ok ()) = Except.ok ()
        rw [if_neg (by omega)]
  · intro hfmt
    unfold verify_binlog_config binlog_format_error
    rw [if_pos hfmt]
    simp [String.append_assoc]
  · intro h1 h2
    unfold verify_binlog_config binlog_row_image_error
    rw [if_neg (not_not_intro h1), if_pos h2]
    simp [String.append_assoc]
  · intro hnot
    cases hfil : logs.filter (fun log => some log.1 = some lf) with
    | cons e1 rest =>
      exfalso
      have he1 : e1 ∈ logs.filter (fun log => some log.1 = some lf) := by
        rw [hfil]; exact List.mem_cons_self e1 rest
      have hkey := List.of_mem_filter he1
      simp only [decide_eq_true_eq, Option.some.injEq] at hkey
      exact hnot (hkey ▸ List.mem_map.mpr ⟨e1, List.mem_of_mem_filter he1, rfl⟩)
    | nil =>
      unfold verify_log_file_exists log_file_missing_error pyStrOpt
      rw [hfil]
      simp [String.append_assoc]
  · intro e1 rest hfil hgt
    unfold verify_log_file_exists log_pos_ahead_error pyStrOpt
    rw [hfil]
    simp [hgt, String.append_assoc]
  · intro e herr
    unfold sync_tableModel
    rw [herr]
    rfl
  · intro e hok herr
    unfold sync_tableModel
    rw [hok, herr]
    rfl

/-- A sync input whose binlog format is invalid. -/
def inpBad : SyncInput :=
  { binlog_format := "STATEMENT", binlog_row_image := "FULL",
    binary_logs := [("bin.000001", 2000)], events := [], now := 0 }

/-- Witness for C6: the retained-log iff at a concrete log list, the
format error text at an observed value STATEMENT, and the abort of the
session before any message. -/
theorem config_verification_gates_witness :
    (verify_log_file_exists [("bin.000001", 2000)] ceS (some "bin.000001")
        (some 4) = Except.ok () ↔
      ∃ tail, ("bin.000001", tail) ∈ [("bin.000001", 2000)] ∧
        (4 : Int) ≤ tail) ∧
    (verify_binlog_config "STATEMENT" "FULL" ceS = Except.error
      ("Unable to replicate stream(" ++ (ceS.stream ++
        (") with binlog because binlog_format is not set to \x27ROW\x27: " ++
          ("STATEMENT" ++ "."))))) ∧
    (sync_tableModel ceS stS ["id"] 7 inpBad = Except.error
      (binlog_format_error ceS.stream "STATEMENT")) :=
  ⟨(config_verification_gates "STATEMENT" "FULL" ceS [("bin.000001", 2000)]
      "bin.000001" 4 stS ["id"] 7 inpBad).2.1 (by decide),
   (config_verification_gates "STATEMENT" "FULL" ceS [("bin.000001", 2000)]
      "bin.000001" 4 stS ["id"] 7 inpBad).2.2.1 (by decide),
   (config_verification_gates "STATEMENT" "FULL" ceS [("bin.000001", 2000)]
      "bin.000001" 4 stS ["id"] 7 inpBad).2.2.2.2.2.2.1
      (binlog_format_error ceS.stream "STATEMENT") rfl⟩

/-! ## C7: version stability -/

/-- C7: a successful session emits exactly one ActivateVersion message,
first, and every record message of the session carries that version. -/
theorem version_stability (catalog_entry : CatalogEntry) (state : TapState)
    (columns : List String) (stream_version : Int) (inp : SyncInput)
    (msgs : List Message) (fin : TapState)
    (h : sync_tableModel catalog_entry state columns stream_version inp =
      Except.ok (msgs, fin)) :
    ∃ rest, msgs =
        Message.activateVersion catalog_entry.stream stream_version :: rest ∧
      (∀ m ∈ rest, Message.isActivate m = false) ∧
      (∀ strm v vals te, Message.record strm v vals te ∈ msgs →
        v = stream_version) := by
  have hms := sync_tableModel_ok catalog_entry state columns stream_version
    inp msgs fin h
  refine ⟨_, hms, ?_, ?_⟩
  · intro m hm
    rcases runEvents_mem_messages
        (sessionCtx catalog_entry columns stream_version state inp) inp.events
        { state := write_bookmark_version state (some stream_version),
          rows_saved := 0 } m hm with hstate | ⟨vals, hrec⟩
    · cases m with
      | state st => rfl
      | record a b c d => rfl
      | activateVersion a b => simp [Message.isState] at hstate
    · rw [hrec]; rfl
  · intro strm v vals te hmem
    rw [hms] at hmem
    rcases List.mem_cons.mp hmem with hhead | htail
    · simp at hhead
    · rcases runEvents_mem_messages
          (sessionCtx catalog_entry columns stream_version state inp) inp.events
          { state := write_bookmark_version state (some stream_version),
            rows_saved := 0 } _ htail with hstate | ⟨vals0, hrec⟩
      · simp [Message.isState] at hstate
      · rw [Message.record.injEq] at hrec
        exact hrec.2.1.trans rfl

/-- The session input of the well-formed one-event witness session. -/
def inpW : SyncInput :=
  { binlog_format := "ROW", binlog_row_image := "FULL",
    binary_logs := [("bin.000001", 2000)], events := [pW2],
    now := 1700000000 }

/-- The messages of the witness session over `inpW`. -/
def msgsW : List Message :=
  [Message.activateVersion "users" 7,
   Message.record "users" 7 [("id", Value.vInt 1), ("name", Value.vStr "a")]
     1700000000,
   Message.state { log_file := some "bin.000001", log_pos := some 340,
                   version := some 7 }]

/-- The final state of the witness session over `inpW`. -/
def finW : TapState :=
  { log_file := some "bin.000001", log_pos := some 340, version := some 7 }

/-- The witness session evaluates as expected. -/
theorem sync_sessionW :
    sync_tableModel ceS stS ["id", "name", SDC_DELETED_AT] 7 inpW =
      Except.ok (msgsW, finW) := rfl

/-- Witness for C7 on the concrete one-event session. -/
theorem version_stability_witness :
    sync_tableModel ceS stS ["id", "name", SDC_DELETED_AT] 7 inpW =
      Except.ok (msgsW, finW) ∧
    ∃ rest, msgsW = Message.activateVersion ceS.stream 7 :: rest ∧
      (∀ m ∈ rest, Message.isActivate m = false) ∧
      (∀ strm v vals te, Message.record strm v vals te ∈ msgsW → v = 7) :=
  ⟨sync_sessionW,
   version_stability ceS stS ["id", "name", SDC_DELETED_AT] 7 inpW msgsW finW
     sync_sessionW⟩

/-! ## C9: record fields are confined to the column list -/

/-- C9: every record message of a successful session only carries keys
that are members of the session's declared column list; payload fields
outside the list are dropped by `row_to_singer_record`. -/
theorem record_fields_within_columns (catalog_entry : CatalogEntry)
    (state : TapState) (columns : List String) (stream_version : Int)
    (inp : SyncInput) (msgs : List Message) (fin : TapState)
    (h : sync_tableModel catalog_entry state columns stream_version inp =
      Except.ok (msgs, fin)) :
    ∀ strm v vals te, Message.record strm v vals te ∈ msgs →
      ∀ kv ∈ vals, kv.1 ∈ columns := by
  intro strm v vals te hmem kv hkv
  rw [sync_tableModel_ok catalog_entry state columns stream_version inp msgs
    fin h] at hmem
  rcases List.mem_cons.mp hmem with hhead | htail
  · simp at hhead
  · rcases runEvents_mem_messages
        (sessionCtx catalog_entry columns stream_version state inp) inp.events
        { state := write_bookmark_version state (some stream_version),
          rows_saved := 0 } _ htail with hstate | ⟨vals0, hrec⟩
    · simp [Message.isState] at hstate
    · rw [Message.record.injEq] at hrec
      rw [hrec.2.2.1] at hkv
      have hp := (List.mem_filter.mp hkv).2
      exact List.mem_of_elem_eq_true hp

/-- Witness for C9: the `id` key of the witness record is in the
declared column list. -/
theorem record_fields_within_columns_witness :
    ("id", Value.vInt 1).1 ∈ ["id", "name", SDC_DELETED_AT] :=
  record_fields_within_columns ceS stS ["id", "name", SDC_DELETED_AT] 7 inpW
    msgsW finW sync_sessionW "users" 7
    [("id", Value.vInt 1), ("name", Value.vStr "a")] 1700000000 (by decide)
    ("id", Value.vInt 1) (by decide)

/-! ## C10: the extraction timestamp is captured once -/

/-- C10: `time_extracted` is `utils.now()` captured once before the
first event is pulled, so every record of a session carries the same
extraction timestamp `inp.now`. -/
theorem extraction_time_captured_once (catalog_entry : CatalogEntry)
    (state : TapState) (columns : List String) (stream_version : Int)
    (inp : SyncInput) (msgs : List Message) (fin : TapState)
    (h : sync_tableModel catalog_entry state columns stream_version inp =
      Except.ok (msgs, fin)) :
    ∀ strm v vals te, Message.record strm v vals te ∈ msgs → te = inp.now := by
  intro strm v vals te hmem
  rw [sync_tableModel_ok catalog_entry state columns stream_version inp msgs
    fin h] at hmem
  rcases List.mem_cons.mp hmem with hhead | htail
  · simp at hhead
  · rcases runEvents_mem_messages
        (sessionCtx catalog_entry columns stream_version state inp) inp.events
        { state := write_bookmark_version state (some stream_version),
          rows_saved := 0 } _ htail with hstate | ⟨vals0, hrec⟩
    · simp [Message.isState] at hstate
    · rw [Message.record.injEq] at hrec
      exact hrec.2.2.2.trans rfl

/-- Witness for C10: the witness record carries `inpW.now`. -/
theorem extraction_time_captured_once_witness :
    (1700000000 : Int) = inpW.now :=
  extraction_time_captured_once ceS stS ["id", "name", SDC_DELETED_AT] 7 inpW
    msgsW finW sync_sessionW "users" 7
    [("id", Value.vInt 1), ("name", Value.vStr "a")] 1700000000 (by decide)

end TapMysql
